import Mathlib

/-!
Verification of the Durham permits dashboard (`src/main.py`) against its
specification.

The Python source is shallowly embedded.  A pandas data frame becomes a
`List` of records, a missing cell becomes `none`, float NaN becomes `none`
in `FVal := Option ℚ` with the NaN-propagation rules of Python / pandas
spelled out operation by operation, and a raised exception becomes a `none`
or `Except.error` result.  Streamlit session state becomes an explicit
`AppState` record and the widget callbacks become a step function on it.
-/

namespace Permits

/-- A raw permit record, as assembled by `query` (src/main.py lines 39-42)
from one GeoJSON feature: the `attributes` object merged with the optional
`geometry` object.  `x`/`y` are `none` when the feature carries no geometry
(the frame then holds NaN in those cells).  `ISSUE_DATE` is in epoch
milliseconds, as transmitted by the server.  `DESCRIPTION`/`COMMENTS` are
`none` for null attribute values. -/
structure RawRow where
  ISSUE_DATE : Int
  DESCRIPTION : Option String
  COMMENTS : Option String
  TYPE : String
  BLDB_ACTIVITY_1 : String
  x : Option ℚ
  y : Option ℚ
deriving DecidableEq

/-- A processed permit record, after `query`'s post-processing
(src/main.py lines 51-55): `ISSUE_DATE` converted to a datetime64[ns]
value (`issueDate`, nanoseconds since the epoch) and the geometry columns
renamed `x → lon`, `y → lat`. -/
structure Row where
  issueDate : Int
  DESCRIPTION : Option String
  COMMENTS : Option String
  TYPE : String
  BLDB_ACTIVITY_1 : String
  lon : Option ℚ
  lat : Option ℚ
deriving DecidableEq

/-- `df.assign(ISSUE_DATE=pd.to_datetime(df.ISSUE_DATE, unit="ms"))` and
`.rename(columns={"x": "lon", "y": "lat"})` (src/main.py lines 52-53):
`pd.to_datetime(unit="ms")` turns epoch milliseconds into a nanosecond
timestamp, i.e. multiplies by 10^6. -/
def normalizeRow (r : RawRow) : Row :=
  { issueDate := r.ISSUE_DATE * 1000000
    DESCRIPTION := r.DESCRIPTION
    COMMENTS := r.COMMENTS
    TYPE := r.TYPE
    BLDB_ACTIVITY_1 := r.BLDB_ACTIVITY_1
    lon := r.x
    lat := r.y }

/-- The pagination loop of `query` (src/main.py lines 22-48).  The remote
server is modelled as a function from page number (`resultOffset` divided
by `max_per_page`) to the page's record list.  `fuel` is the number of
loop iterations still allowed (`max_pages - i`); exhausting it without a
short page corresponds to the for-else `raise RuntimeError("max_pages
exceeded")`.  The second component of the result counts page requests
issued. -/
def fetchGo (server : Nat → List RawRow) (max_per_page : Nat) :
    Nat → Nat → List RawRow → Except String (List RawRow × Nat)
  | 0, _, _ => .error "max_pages exceeded"
  | fuel + 1, i, acc =>
    let rows := server i
    if rows.length < max_per_page then .ok (acc ++ rows, i + 1)
    else fetchGo server max_per_page fuel (i + 1) (acc ++ rows)

/-- The whole fetch loop of `query`: `for i in range(max_pages)` starting
at page 0 with an empty accumulator. -/
def fetchPages (server : Nat → List RawRow) (max_per_page max_pages : Nat) :
    Except String (List RawRow × Nat) :=
  fetchGo server max_per_page max_pages 0 []

/-- Insert a row into a list sorted descending by `issueDate`. -/
def insertDesc (r : Row) : List Row → List Row
  | [] => [r]
  | x :: xs => if x.issueDate ≤ r.issueDate then r :: x :: xs else x :: insertDesc r xs

/-- `df.sort_values("ISSUE_DATE", ascending=False)` (src/main.py line 54):
a comparison sort producing a permutation of the frame ordered by
`issueDate` descending (pandas' default quicksort is not stable, so only
the sorted-permutation contract is modelled, not any particular tie
order). -/
def sortDesc : List Row → List Row
  | [] => []
  | r :: rs => insertDesc r (sortDesc rs)

/-- The full `query` function (src/main.py lines 15-55): fetch all pages,
then build the frame and post-process it.  `pd.DataFrame([])` of an empty
row list has no columns, so the subsequent `df.ISSUE_DATE` attribute
access raises; that corner is the `.error "AttributeError"` branch. -/
def queryFull (server : Nat → List RawRow) (max_per_page max_pages : Nat) :
    Except String (List Row) :=
  (fetchPages server max_per_page max_pages).bind fun rn =>
    if rn.1.isEmpty then .error "AttributeError"
    else .ok (sortDesc (rn.1.map normalizeRow))

/-! ### Float values with NaN (viewport computation) -/

/-- A Python/pandas float value: `none` is NaN (also the result of pandas
aggregations over an empty or all-NaN column), `some q` a real number. -/
abbrev FVal := Option ℚ

/-- `Series.max()` with the default `skipna=True`: the maximum of the
present values, NaN when no value is present. -/
def seriesMax (xs : List FVal) : FVal :=
  match xs.filterMap id with
  | [] => none
  | y :: ys => some (ys.foldl max y)

/-- `Series.min()` with the default `skipna=True`. -/
def seriesMin (xs : List FVal) : FVal :=
  match xs.filterMap id with
  | [] => none
  | y :: ys => some (ys.foldl min y)

/-- Float subtraction: NaN propagates. -/
def fsub : FVal → FVal → FVal
  | some a, some b => some (a - b)
  | _, _ => none

/-- Float division: NaN propagates.  (The code only divides by a value it
has just checked to be truthy, hence nonzero, so `ZeroDivisionError` is
unreachable and not modelled.) -/
def fdiv : FVal → FVal → FVal
  | some a, some b => some (a / b)
  | _, _ => none

/-- Python builtin `max(a, b)`: returns `b` exactly when `b > a`, else
`a`.  Any comparison against NaN is false, so `max(nan, x) = nan` and
`max(x, nan) = x`. -/
def pymax (a b : FVal) : FVal :=
  match a, b with
  | some x, some y => if x < y then b else a
  | _, _ => a

/-- Python builtin `min(a, b)`: returns `b` exactly when `b < a`, else
`a`. -/
def pymin (a b : FVal) : FVal :=
  match a, b with
  | some x, some y => if y < x then b else a
  | _, _ => a

/-- Python truthiness of a float: `0.0` is falsy, every other float —
including NaN — is truthy. -/
def truthy : FVal → Bool
  | none => true
  | some q => q != 0

/-- `map_focus_df.lon.max() - map_focus_df.lon.min()` (src/main.py
line 172). -/
def lonSpan (focus : List Row) : FVal :=
  fsub (seriesMax (focus.map (·.lon))) (seriesMin (focus.map (·.lon)))

/-- `map_focus_df.lat.max() - map_focus_df.lat.min()` (src/main.py
line 173). -/
def latSpan (focus : List Row) : FVal :=
  fsub (seriesMax (focus.map (·.lat))) (seriesMin (focus.map (·.lat)))

/-- `angle = max(longitude_range, latitude_range)` (src/main.py
line 174). -/
def angleOf (focus : List Row) : FVal :=
  pymax (lonSpan focus) (latSpan focus)

/-- `zoom = min(max(math.log2(360 / angle), 8), 15) if angle else 15`
(src/main.py line 175).  `math.log2` is a transcendental function on
floats; it is taken as a parameter, the claims below hold for every
choice of it (the NaN path never applies it). -/
def zoomOf (log2 : ℚ → ℚ) (focus : List Row) : FVal :=
  if truthy (angleOf focus) then
    pymin (pymax ((fdiv (some 360) (angleOf focus)).map log2) (some 8)) (some 15)
  else some 15

/-! ### The local filter (src/main.py lines 143-150)

`pd.Series.str.contains(text, case=False)` interprets `text` as a regular
expression (the default `regex=True`) compiled with `re.IGNORECASE`, and
returns, per cell, `True`/`False` for present strings and NaN for missing
ones.  The fragment of Python regular-expression syntax modelled here is
literal characters plus the `.` wildcard; a query text using any other
metacharacter is outside the model (`compileRe` returns `none` for it). -/

/-- One compiled regular-expression token: the `.` wildcard or a literal
character. -/
inductive RTok where
  | dot : RTok
  | lit : Char → RTok
deriving DecidableEq

/-- The regex metacharacters of Python `re` other than `.`; query texts
containing any of these are outside the modelled fragment.  (`\x7b` and
`\x7d` are the curly braces.) -/
def reMeta : List Char := ['^', '$', '*', '+', '?', '\x7b', '\x7d', '[', ']', '\\', '|', '(', ')']

/-- Compile a query text into the modelled regex fragment: `.` becomes the
wildcard, any other non-metacharacter a literal; `none` when the text uses
an unmodelled metacharacter. -/
def compileRe : List Char → Option (List RTok)
  | [] => some []
  | c :: cs =>
    if c ∈ reMeta then none
    else (compileRe cs).map fun p => (if c = '.' then RTok.dot else RTok.lit c) :: p

/-- Match of one token against one character.  `.` matches anything but a
newline (no `re.DOTALL`); a literal matches up to case (`re.IGNORECASE`,
ASCII case folding as in `Char.toLower`). -/
def tokMatch : RTok → Char → Bool
  | RTok.dot, c => c != '\n'
  | RTok.lit l, c => l.toLower == c.toLower

/-- Whether the pattern matches a prefix of the character list. -/
def matchAt : List RTok → List Char → Bool
  | [], _ => true
  | _ :: _, [] => false
  | t :: p, c :: s => tokMatch t c && matchAt p s

/-- `re.search` semantics: the pattern matches starting at some position
of the string. -/
def reSearch (p : List RTok) : List Char → Bool
  | [] => matchAt p []
  | c :: s => matchAt p (c :: s) || reSearch p s

/-- `re.search` on a `String` field value. -/
def reSearchS (p : List RTok) (s : String) : Bool :=
  reSearch p s.toList

/-- The specification's text predicate on one field ("case-insensitive
substring match against `description` OR `comments`"), for comparison
with the code's regex semantics: the lower-cased query text occurs as a
contiguous sublist of the lower-cased field. -/
abbrev ciSubstr (pat s : List Char) : Prop :=
  (pat.map Char.toLower) <:+: (s.map Char.toLower)

/-- Elementwise `|` of two object-dtype masks, as pandas `vec_binop`
evaluates it: on booleans it is boolean or; when one operand is NaN the
*other* operand is returned (so `nan | nan` is NaN, `False | nan` is
`False`). -/
def vecOr : Option Bool → Option Bool → Option Bool
  | some a, some b => some (a || b)
  | none, y => y
  | x, none => x

/-- `bool-series & object-series` as pandas `vec_binop` evaluates it: on
booleans it is boolean and; against a NaN cell the boolean operand is
returned. -/
def andBoolObj (b : Bool) : Option Bool → Option Bool
  | some v => some (b && v)
  | none => some b

/-- An operand of the `&`-chain in src/main.py lines 144-145: either the
Python constant `True` (an empty multiselect) or a boolean `isin`
series. -/
inductive PdMask where
  | scalarTrue : PdMask
  | series : List Bool → PdMask

/-- `&` between the two `isin` operands (`True & True` is the Python
bool `True`; `True & series` and `series & True` keep the series;
two series are and-ed elementwise). -/
def pdAnd : PdMask → PdMask → PdMask
  | PdMask.scalarTrue, y => y
  | PdMask.series a, PdMask.scalarTrue => PdMask.series a
  | PdMask.series a, PdMask.series b => PdMask.series (List.zipWith (· && ·) a b)

/-- `&` between the `isin` conjunction and the object-dtype text mask.
`True & mask` goes through pandas `scalar_binop`, which keeps NaN cells
NaN and leaves booleans unchanged; `series & mask` goes through
`vec_binop` (`andBoolObj`). -/
def maskAndText : PdMask → List (Option Bool) → List (Option Bool)
  | PdMask.scalarTrue, t => t
  | PdMask.series m, t => List.zipWith andBoolObj m t

/-- The object-dtype mask of the text test (src/main.py lines 146-149):
`df.DESCRIPTION.str.contains(text, case=False) |
df.COMMENTS.str.contains(text, case=False)`, one cell per row, NaN where
the field is missing. -/
def textMask (p : List RTok) (rows : List Row) : List (Option Bool) :=
  List.zipWith vecOr
    (rows.map fun r => r.DESCRIPTION.map (reSearchS p))
    (rows.map fun r => r.COMMENTS.map (reSearchS p))

/-- The text mask's cell for one row. -/
def textCell (p : List RTok) (r : Row) : Option Bool :=
  vecOr (r.DESCRIPTION.map (reSearchS p)) (r.COMMENTS.map (reSearchS p))

/-- The whole local filter `df[...]` (src/main.py lines 143-150) on the
modelled regex fragment `p` of the query text.  Returns `none` when the
combined mask still contains a NaN cell: indexing a frame with such a
mask raises (`ValueError: cannot mask with non-boolean array containing
NA / NaN values`; were the whole column missing, the `.str` accessor
itself would raise). -/
def applyFilter (rows : List Row) (bld_type activity : List String) (p : List RTok) :
    Option (List Row) :=
  let m1 : PdMask :=
    if bld_type.isEmpty then PdMask.scalarTrue
    else PdMask.series (rows.map fun r => bld_type.contains r.TYPE)
  let m2 : PdMask :=
    if activity.isEmpty then PdMask.scalarTrue
    else PdMask.series (rows.map fun r => activity.contains r.BLDB_ACTIVITY_1)
  let m := maskAndText (pdAnd m1 m2) (textMask p rows)
  if m.all Option.isSome then
    some ((List.zip rows m).filterMap fun rm => if rm.2 = some true then some rm.1 else none)
  else none

/-! ### Selection synchronization (src/main.py lines 58-95, 158-212)

Streamlit session state is an explicit record; each user event first
records the reporting widget's own state (as Streamlit does before
invoking the callback), then runs the corresponding callback, and a
filter/date change additionally models the rerun that rebuilds the
filtered frame. -/

/-- The session state of the dashboard.  `tableSel k` is the internal
selection of the table widget keyed `table_{k}`; a key never used yet
holds the empty selection.  `mapSel` is the `"scatterplot"` entry of the
map widget's `selection.indices` (`none` when the key is absent).
`selected_df` mirrors `st.session_state.selected_df` (`none` when
deleted), `df` mirrors `st.session_state.df`. -/
structure AppState where
  table_idx : Nat
  tableSel : Nat → List Nat
  mapSel : Option (List Nat)
  df : List Row
  selected_df : Option (List Row)

/-- A user event driving one rerun. `filterChange` carries the filtered
frame the rerun recomputes from the new filter values. -/
inductive Event where
  | tableSelect : List Nat → Event
  | mapSelect : Option (List Nat) → Event
  | filterChange : List Row → Event

/-- Point-update of the table-widget store. -/
def updSel (f : Nat → List Nat) (k : Nat) (v : List Nat) : Nat → List Nat :=
  fun j => if j = k then v else f j

/-- `df.iloc[idxs]`: the rows at the given positions, `none` when any
position is out of bounds (pandas raises `IndexError`). -/
def iloc (df : List Row) : List Nat → Option (List Row)
  | [] => some []
  | i :: is => (df[i]?).bind fun r => (iloc df is).map fun rest => r :: rest

/-- `reset_table` (src/main.py lines 58-62): clears the table selection
by bumping the table widget's key. -/
def reset_table (s : AppState) : AppState :=
  { s with table_idx := s.table_idx + 1 }

/-- `on_table_select` (src/main.py lines 65-73): reads the current table
widget's reported rows; a non-empty selection stores the selected rows, an
empty one deletes `selected_df`. -/
def on_table_select (s : AppState) : Option AppState :=
  let rows := s.tableSel s.table_idx
  if rows ≠ [] then (iloc s.df rows).map fun sel => { s with selected_df := some sel }
  else some { s with selected_df := none }

/-- `on_map_select` (src/main.py lines 76-86): first forces a table-widget
reset, then stores the rows at the map's reported indices when the
`"scatterplot"` key is present, else deletes `selected_df`. -/
def on_map_select (s : AppState) : Option AppState :=
  let s1 := reset_table s
  match s1.mapSel with
  | some idxs => (iloc s1.df idxs).map fun sel => { s1 with selected_df := some sel }
  | none => some { s1 with selected_df := none }

/-- `on_filter_change` (src/main.py lines 89-95): resets the table widget
and deletes `selected_df` (and `df`, which the rerun immediately
rebuilds). -/
def on_filter_change (s : AppState) : AppState :=
  { reset_table s with selected_df := none }

/-- One triggering event: the reporting widget records its state, the
callback runs, and for a filter change the rerun installs the newly
filtered frame.  `none` models an uncaught exception (out-of-bounds
`iloc`). -/
def step (s : AppState) : Event → Option AppState
  | Event.tableSelect rows =>
    on_table_select { s with tableSel := updSel s.tableSel s.table_idx rows }
  | Event.mapSelect idxs => on_map_select { s with mapSel := idxs }
  | Event.filterChange newDf => some { on_filter_change s with df := newDf }

/-- A whole event sequence. -/
def steps (s : AppState) : List Event → Option AppState
  | [] => some s
  | e :: es => (step s e).bind fun s2 => steps s2 es

/-- The table widget's displayed selection: the internal selection stored
under the current key (a freshly bumped key displays nothing). -/
def displayedTableSel (s : AppState) : List Nat :=
  s.tableSel s.table_idx

/-- The focus set feeding the map viewport and the detail panel
(src/main.py lines 169-171, 209-212): the selected rows when a selection
exists, else the whole filtered frame. -/
def mapFocus (s : AppState) : List Row :=
  s.selected_df.getD s.df

/-- The specification's selection state (spec section 3). -/
inductive SelState where
  | NONE : SelState
  | TABLE_ACTIVE : List Nat → SelState
  | MAP_ACTIVE : List Nat → SelState
deriving DecidableEq

/-- The selection state as derived from the observable session state: the
code stores no source tag, but a stored `selected_df` together with a
non-empty displayed table selection is a table selection (a map selection
always resets the table widget first), and with an empty displayed table
selection it is the map's. -/
def selStateOf (s : AppState) : SelState :=
  match s.selected_df with
  | none => SelState.NONE
  | some _ =>
    if displayedTableSel s ≠ [] then SelState.TABLE_ACTIVE (displayedTableSel s)
    else SelState.MAP_ACTIVE (s.mapSel.getD [])

/-- The indices carried by a selection state. -/
def selIdxs : SelState → List Nat
  | SelState.NONE => []
  | SelState.TABLE_ACTIVE l => l
  | SelState.MAP_ACTIVE l => l

/-- Table-widget keys above the current one have never been used and hold
no selection; true initially and preserved by every step. -/
def freshAbove (s : AppState) : Prop :=
  ∀ k, s.table_idx < k → s.tableSel k = []

/-- An event the configured widgets can actually emit: the table is
`selection_mode="single-row"` (src/main.py line 164) and the map is
`selection_mode="single-object"` (line 203), so either reports at most
one index. -/
def goodEvent : Event → Prop
  | Event.tableSelect rows => rows.length ≤ 1
  | Event.mapSelect idxs => (idxs.getD []).length ≤ 1
  | Event.filterChange _ => True

/-- Both widget stores hold at most one index everywhere. -/
def widgetInv (s : AppState) : Prop :=
  (∀ k, (s.tableSel k).length ≤ 1) ∧ (∀ l, s.mapSel = some l → l.length ≤ 1)

/-- Session state at the start of a session: table key 0, no widget has
reported anything, no selection stored. -/
def initState (df : List Row) : AppState :=
  { table_idx := 0, tableSel := fun _ => [], mapSel := none, df := df, selected_df := none }

/-! ### Query result cache -/

/-- Modelled from the spec: the query cache itself is the
`@st.cache_data(ttl=3600)` decorator on `query` (src/main.py line 15),
whose implementation lives in the Streamlit library, not in this
repository.  Spec section 4.2: the cache maps a date-range key to a
previously computed result; an entry is valid for a fixed time-to-live
measured from the time it was stored, after which the next lookup
re-invokes the fetch. -/
structure CacheEntry (α : Type) where
  storedAt : Nat
  value : α

/-- Modelled from the spec: the cache store, one optional entry per
key. -/
def Store (κ α : Type) := κ → Option (CacheEntry α)

/-- Modelled from the spec: one cache lookup at wall-clock time `now`.
Returns the result, the updated store, and whether the fetch function was
invoked. -/
def cacheGet [DecidableEq κ] (ttl now : Nat) (store : Store κ α) (key : κ)
    (fetchFn : κ → α) : α × Store κ α × Bool :=
  match store key with
  | some e =>
    if now < e.storedAt + ttl then (e.value, store, false)
    else
      let v := fetchFn key
      (v, fun k => if k = key then some ⟨now, v⟩ else store k, true)
  | none =>
    let v := fetchFn key
    (v, fun k => if k = key then some ⟨now, v⟩ else store k, true)

/-! ### Concrete inputs used by the witnesses -/

/-- A sample raw record. -/
def rawA : RawRow :=
  { ISSUE_DATE := 1700000000000, DESCRIPTION := some "New Roof", COMMENTS := none,
    TYPE := "RESIDENTIAL", BLDB_ACTIVITY_1 := "ROOFING", x := some 1, y := some 2 }

/-- A second sample raw record, issued earlier. -/
def rawB : RawRow :=
  { ISSUE_DATE := 1600000000000, DESCRIPTION := some "Deck repair", COMMENTS := some "rear deck",
    TYPE := "COMMERCIAL", BLDB_ACTIVITY_1 := "CARPENTRY", x := none, y := none }

/-- A sample processed row with both text fields present. -/
def rowA : Row := normalizeRow rawA

/-- A processed row whose description is present but whose comments are
missing. -/
def rowDescOnly : Row :=
  { issueDate := 0, DESCRIPTION := some "abc", COMMENTS := none,
    TYPE := "T", BLDB_ACTIVITY_1 := "A", lon := none, lat := none }

/-- A processed row with both text fields missing. -/
def rowBothMissing : Row :=
  { issueDate := 0, DESCRIPTION := none, COMMENTS := none,
    TYPE := "T", BLDB_ACTIVITY_1 := "A", lon := none, lat := none }

/-- A ten-row frame for the selection witnesses. -/
def sampleDf : List Row := List.replicate 10 rowA

/-- A server whose first page is full (2000 records) and whose second is
short (437 records). -/
def shortPageServer : Nat → List RawRow :=
  fun i => if i = 0 then List.replicate 2000 rawA else List.replicate 437 rawB

/-- A server answering every page with the same two records. -/
def twoRowServer : Nat → List RawRow := fun _ => [rawA, rawB]

/-- The pattern that the query text `"a.c"` compiles to. -/
def patAC : List RTok := [RTok.lit 'a', RTok.dot, RTok.lit 'c']

/-- The pattern that the query text `"roof"` compiles to. -/
def patRoof : List RTok := [RTok.lit 'r', RTok.lit 'o', RTok.lit 'o', RTok.lit 'f']

/-! ## Theorems -/

/-- One unfolding of the pagination loop when fuel remains. -/
theorem fetchGo_step (server : Nat → List RawRow) (mpp fuel i : Nat) (acc : List RawRow)
    (hfuel : fuel ≠ 0) :
    fetchGo server mpp fuel i acc =
      if (server i).length < mpp then Except.ok (acc ++ server i, i + 1)
      else fetchGo server mpp (fuel - 1) (i + 1) (acc ++ server i) := by
  cases fuel with
  | zero => exact absurd rfl hfuel
  | succ n => rfl

/-- C6: the fetch loop stops at the first short page.  With pages of
2000 records requested, a server whose page 0 holds 2000 records and
whose page 1 holds 437 yields exactly the concatenation of those two
pages after exactly 2 page requests; no third request is made (the
result does not depend on any later page). -/
theorem fetch_stops_at_short_page (server : Nat → List RawRow)
    (h0 : (server 0).length = 2000) (h1 : (server 1).length = 437) :
    fetchPages server 2000 100 = Except.ok (server 0 ++ server 1, 2) := by
  show fetchGo server 2000 100 0 [] = _
  rw [fetchGo_step server 2000 100 0 [] (by norm_num), h0, if_neg (by norm_num)]
  rw [fetchGo_step server 2000 99 1 ([] ++ server 0) (by norm_num), h1, if_pos (by norm_num)]
  simp

/-- Witness for C6 at a concrete server. -/
theorem fetch_stops_at_short_page_witness :
    (shortPageServer 0).length = 2000 ∧ (shortPageServer 1).length = 437 ∧
    fetchPages shortPageServer 2000 100 =
      Except.ok (shortPageServer 0 ++ shortPageServer 1, 2) := by
  have e0 : shortPageServer 0 = List.replicate 2000 rawA := rfl
  have e1 : shortPageServer 1 = List.replicate 437 rawB := rfl
  have l0 : (shortPageServer 0).length = 2000 := by rw [e0, List.length_replicate]
  have l1 : (shortPageServer 1).length = 437 := by rw [e1, List.length_replicate]
  exact ⟨l0, l1, fetch_stops_at_short_page shortPageServer l0 l1⟩

/-- Helper for C7: if no page in the remaining window is short, the loop
exhausts its fuel and errors. -/
theorem fetchGo_all_full (server : Nat → List RawRow) (mpp : Nat) :
    ∀ fuel i acc, (∀ j, i ≤ j → j < i + fuel → ¬ (server j).length < mpp) →
      fetchGo server mpp fuel i acc = Except.error "max_pages exceeded" := by
  intro fuel
  induction fuel with
  | zero => intro i acc _; rfl
  | succ n ih =>
    intro i acc h
    rw [fetchGo_step server mpp (n + 1) i acc (Nat.succ_ne_zero n)]
    rw [if_neg (h i (le_refl i) (by omega))]
    simp only [Nat.add_sub_cancel]
    exact ih (i + 1) (acc ++ server i) fun j hj1 hj2 => h j (by omega) (by omega)

/-- C7: when every one of the `max_pages` requested pages comes back
full (exactly the page size), the fetch raises the pagination error
(`RuntimeError("max_pages exceeded")`, the spec's
`PaginationExceededError`) and returns no record set at all. -/
theorem fetch_exhausted_budget_errors (server : Nat → List RawRow) (mpp max_pages : Nat)
    (h : ∀ j, j < max_pages → (server j).length = mpp) :
    fetchPages server mpp max_pages = Except.error "max_pages exceeded" :=
  fetchGo_all_full server mpp max_pages 0 [] fun j hj1 hj2 => by
    rw [h j (by omega)]; omega

/-- Witness for C7 at a concrete server that always answers a full
page. -/
theorem fetch_exhausted_budget_errors_witness :
    (∀ j, j < 100 → ((fun _ => [rawA]) j : List RawRow).length = 1) ∧
    fetchPages (fun _ => [rawA]) 1 100 = Except.error "max_pages exceeded" :=
  ⟨fun _ _ => rfl, fetch_exhausted_budget_errors (fun _ => [rawA]) 1 100 fun _ _ => rfl⟩

/-- C2 (code bug): on an empty focus set — in particular zero records
with both coordinates present — `angle` is NaN; Python's `if angle` takes
the NaN branch because NaN is truthy, and NaN then propagates through
`log2`, `max` and `min`, so the zoom is NaN, not the fixed 15 the
specification prescribes.  No exception is raised (the computation is
total), but the zoom is exactly the "undefined value" the claim
excludes.  This holds for every model of `math.log2`, which the NaN path
never applies. -/
theorem zoom_nan_on_empty_focus (log2 : ℚ → ℚ) :
    zoomOf log2 [] = none ∧ zoomOf log2 [] ≠ some 15 :=
  ⟨rfl, fun h => Option.noConfusion h⟩

/-- C8 (modelled from the spec): a second lookup with the same key
within the TTL window returns the identical result without invoking the
fetch function and without touching the store; once the TTL has elapsed,
the next lookup invokes the fetch function again. -/
theorem cache_ttl_idempotence {κ α : Type} [DecidableEq κ] (ttl t0 t1 t2 : Nat)
    (store0 : Store κ α) (key : κ) (fetchFn : κ → α)
    (hfresh : store0 key = none) (hin : t1 < t0 + ttl) (hout : t0 + ttl ≤ t2) :
    (cacheGet ttl t1 (cacheGet ttl t0 store0 key fetchFn).2.1 key fetchFn).1 =
      (cacheGet ttl t0 store0 key fetchFn).1 ∧
    (cacheGet ttl t1 (cacheGet ttl t0 store0 key fetchFn).2.1 key fetchFn).2.1 =
      (cacheGet ttl t0 store0 key fetchFn).2.1 ∧
    (cacheGet ttl t1 (cacheGet ttl t0 store0 key fetchFn).2.1 key fetchFn).2.2 = false ∧
    (cacheGet ttl t2 (cacheGet ttl t0 store0 key fetchFn).2.1 key fetchFn).2.2 = true := by
  have hnot : ¬ t2 < t0 + ttl := Nat.not_lt.mpr hout
  simp [cacheGet, hfresh, hin, hnot]

/-- Witness for C8 with the default TTL of 3600 seconds: a hit 10
seconds after the store, a refetch 3600 seconds after it. -/
theorem cache_ttl_idempotence_witness :
    ((fun _ : Nat => (none : Option (CacheEntry Nat))) 0 = none) ∧ 10 < 0 + 3600 ∧
    0 + 3600 ≤ 3600 ∧
    (cacheGet 3600 10 (cacheGet 3600 0 (fun _ => none) 0 Nat.succ).2.1 0 Nat.succ).1 =
      (cacheGet 3600 0 (fun _ => none) 0 Nat.succ).1 ∧
    (cacheGet 3600 10 (cacheGet 3600 0 (fun _ => none) 0 Nat.succ).2.1 0 Nat.succ).2.2 = false ∧
    (cacheGet 3600 3600 (cacheGet 3600 0 (fun _ => none) 0 Nat.succ).2.1 0 Nat.succ).2.2 = true := by
  have h := cache_ttl_idempotence 3600 0 10 3600 (fun _ : Nat => (none : Option (CacheEntry Nat)))
    0 Nat.succ rfl (by norm_num) (by norm_num)
  exact ⟨rfl, by norm_num, by norm_num, h.1, h.2.2.1, h.2.2.2⟩

/-- Inserting into the descending sort is a permutation of consing. -/
theorem insertDesc_perm (r : Row) (l : List Row) : (insertDesc r l).Perm (r :: l) := by
  induction l with
  | nil => exact List.Perm.refl _
  | cons x xs ih =>
    simp only [insertDesc]
    by_cases h : x.issueDate ≤ r.issueDate
    · rw [if_pos h]
    · rw [if_neg h]
      exact (ih.cons x).trans (List.Perm.swap r x xs)

/-- The descending sort permutes its input. -/
theorem sortDesc_perm (l : List Row) : (sortDesc l).Perm l := by
  induction l with
  | nil => exact List.Perm.refl _
  | cons r rs ih => exact (insertDesc_perm r (sortDesc rs)).trans (ih.cons r)

/-- Inserting into a list sorted descending by `issueDate` keeps it
sorted. -/
theorem insertDesc_sorted (r : Row) (l : List Row)
    (h : List.Sorted (fun a b : Row => b.issueDate ≤ a.issueDate) l) :
    List.Sorted (fun a b : Row => b.issueDate ≤ a.issueDate) (insertDesc r l) := by
  induction l with
  | nil => exact List.sorted_singleton r
  | cons x xs ih =>
    obtain ⟨hx, hxs⟩ := List.sorted_cons.mp h
    simp only [insertDesc]
    by_cases hc : x.issueDate ≤ r.issueDate
    · rw [if_pos hc]
      refine List.sorted_cons.mpr ⟨?_, h⟩
      intro b hb
      rcases List.mem_cons.mp hb with rfl | hb
      · exact hc
      · exact le_trans (hx b hb) hc
    · rw [if_neg hc]
      refine List.sorted_cons.mpr ⟨?_, ih hxs⟩
      intro b hb
      rcases List.mem_cons.mp ((insertDesc_perm r xs).mem_iff.mp hb) with h1 | h1
      · subst h1; omega
      · exact hx b h1

/-- The descending sort sorts. -/
theorem sortDesc_sorted (l : List Row) :
    List.Sorted (fun a b : Row => b.issueDate ≤ a.issueDate) (sortDesc l) := by
  induction l with
  | nil => exact List.sorted_nil
  | cons r rs ih => exact insertDesc_sorted r (sortDesc rs) ih

/-- C9: every successful fetch yields a record sequence that is a
permutation of the fetched pages' rows with `ISSUE_DATE` normalized from
epoch milliseconds to (nanosecond) timestamps — every returned record is
the normalization of some fetched raw record — and that is sorted
descending by `issueDate`. -/
theorem query_sorted_normalized (server : Nat → List RawRow) (mpp mpages : Nat)
    (res : List Row) (h : queryFull server mpp mpages = Except.ok res) :
    List.Sorted (fun a b : Row => b.issueDate ≤ a.issueDate) res ∧
    ∃ rows n, fetchPages server mpp mpages = Except.ok (rows, n) ∧
      res.Perm (rows.map normalizeRow) ∧
      ∀ r ∈ res, ∃ raw ∈ rows, r = normalizeRow raw := by
  unfold queryFull at h
  cases hf : fetchPages server mpp mpages with
  | error e => rw [hf] at h; cases h
  | ok rn =>
    rw [hf] at h
    simp only [Except.bind] at h
    by_cases he : rn.1.isEmpty
    · rw [if_pos he] at h; cases h
    · rw [if_neg he] at h
      have hres : res = sortDesc (rn.1.map normalizeRow) := by
        injection h with h2; exact h2.symm
      subst hres
      refine ⟨sortDesc_sorted _, rn.1, rn.2, rfl, sortDesc_perm _, ?_⟩
      intro r hr
      have : r ∈ rn.1.map normalizeRow := ((sortDesc_perm _).mem_iff).mp hr
      obtain ⟨raw, hraw, heq⟩ := List.mem_map.mp this
      exact ⟨raw, hraw, heq.symm⟩

/-- Witness for C9 at a concrete two-record server. -/
theorem query_sorted_normalized_witness :
    queryFull twoRowServer 3 100 = Except.ok [normalizeRow rawA, normalizeRow rawB] ∧
    List.Sorted (fun a b : Row => b.issueDate ≤ a.issueDate)
      [normalizeRow rawA, normalizeRow rawB] ∧
    ∃ rows n, fetchPages twoRowServer 3 100 = Except.ok (rows, n) ∧
      ([normalizeRow rawA, normalizeRow rawB]).Perm (rows.map normalizeRow) ∧
      ∀ r ∈ [normalizeRow rawA, normalizeRow rawB], ∃ raw ∈ rows, r = normalizeRow raw := by
  have hq : queryFull twoRowServer 3 100 = Except.ok [normalizeRow rawA, normalizeRow rawB] :=
    rfl
  exact ⟨hq, query_sorted_normalized twoRowServer 3 100 _ hq⟩

/-- The empty pattern (the compilation of the empty query text) matches
every string, as `re.search("", s)` does. -/
theorem reSearch_nil (s : List Char) : reSearch [] s = true := by
  cases s with
  | nil => rfl
  | cons c cs => rfl

/-- The text mask is the per-row cell, mapped. -/
theorem textMask_eq_map (p : List RTok) (rows : List Row) :
    textMask p rows = rows.map (textCell p) := by
  induction rows with
  | nil => rfl
  | cons r rs ih => simp [textMask, textCell, List.zipWith_cons_cons, ih]

/-- With the empty pattern, a row with at least one text field present
gets a `True` cell. -/
theorem textCell_nil (r : Row) (h : r.DESCRIPTION.isSome ∨ r.COMMENTS.isSome) :
    textCell [] r = some true := by
  unfold textCell
  cases hd : r.DESCRIPTION with
  | some s => cases hc : r.COMMENTS <;> simp [vecOr, reSearchS, reSearch_nil]
  | none =>
    cases hc : r.COMMENTS with
    | some t => simp [vecOr, reSearchS, reSearch_nil]
    | none => rw [hd, hc] at h; simp at h

/-- Selecting with an all-`True` mask keeps every row in order. -/
theorem select_all_true (rows : List Row) :
    ((List.zip rows (rows.map fun _ => (some true : Option Bool))).filterMap
      fun rm => if rm.2 = some true then some rm.1 else none) = rows := by
  induction rows with
  | nil => rfl
  | cons r rs ih =>
    show r :: ((List.zip rs (rs.map fun _ => (some true : Option Bool))).filterMap
      fun rm => if rm.2 = some true then some rm.1 else none) = r :: rs
    rw [ih]

/-- C1 (amended): the filter with all predicates empty (no types, no
activities, empty text) returns the input unchanged, order preserved —
for every sequence in which each record has at least one of
`description`/`comments` present.  The empty-text test is still applied
(`str.contains("")` matches every present string and is NaN on a missing
one), so a single present field per record suffices. -/
theorem apply_empty_predicates_keeps_all (rows : List Row)
    (h : ∀ r ∈ rows, r.DESCRIPTION.isSome ∨ r.COMMENTS.isSome) :
    applyFilter rows [] [] [] = some rows := by
  have hmask : textMask [] rows = rows.map fun _ => (some true : Option Bool) := by
    rw [textMask_eq_map]
    exact List.map_congr_left fun r hr => textCell_nil r (h r hr)
  have step1 : applyFilter rows [] [] [] =
      (if (textMask [] rows).all Option.isSome then
        some ((rows.zip (textMask [] rows)).filterMap
          fun rm => if rm.2 = some true then some rm.1 else none)
      else none) := rfl
  rw [step1, hmask]
  rw [if_pos (by simp [List.all_map])]
  exact congrArg some (select_all_true rows)

/-- Witness for C1's amended theorem: two records, one with both text
fields present and one missing its comments, pass through unchanged. -/
theorem apply_empty_predicates_keeps_all_witness :
    (∀ r ∈ [rowA, rowDescOnly], r.DESCRIPTION.isSome ∨ r.COMMENTS.isSome) ∧
    applyFilter [rowA, rowDescOnly] [] [] [] = some [rowA, rowDescOnly] :=
  ⟨by decide, apply_empty_predicates_keeps_all [rowA, rowDescOnly] (by decide)⟩

/-- C1 (counterexample): a sequence containing a record with *both*
`description` and `comments` missing is not returned unchanged by the
all-empty filter — its text-mask cell is NaN (`nan | nan` stays NaN), and
indexing the frame with a mask containing NaN raises, modelled as
`none`. -/
theorem apply_empty_drops_missing_both :
    compileRe "".toList = some [] ∧
    applyFilter [rowBothMissing] [] [] [] = none ∧
    applyFilter [rowBothMissing] [] [] [] ≠ some [rowBothMissing] := by
  refine ⟨rfl, rfl, ?_⟩
  intro hcontra
  exact Option.noConfusion hcontra

/-- A literal-only pattern matches at the front exactly when its
lower-cased characters are a prefix of the lower-cased string. -/
theorem matchAt_lit (l : List Char) (s : List Char) :
    (matchAt (l.map RTok.lit) s = true) ↔ (l.map Char.toLower) <+: (s.map Char.toLower) := by
  induction l generalizing s with
  | nil => simp [matchAt, List.nil_prefix]
  | cons c cs ih =>
    cases s with
    | nil => simp [matchAt, List.prefix_nil]
    | cons d ds =>
      simp [matchAt, tokMatch, List.cons_prefix_cons, ih, Bool.and_eq_true, beq_iff_eq]

/-- A literal-only pattern is found somewhere in the string exactly when
its lower-cased characters are an infix of the lower-cased string:
`re.search` with `re.IGNORECASE` on a metacharacter-free pattern is
case-insensitive substring search. -/
theorem reSearch_lit_iff_infix (l : List Char) (s : List Char) :
    (reSearch (l.map RTok.lit) s = true) ↔ (l.map Char.toLower) <:+: (s.map Char.toLower) := by
  induction s with
  | nil =>
    cases l with
    | nil => simp [reSearch, matchAt]
    | cons c cs => simp [reSearch, matchAt, List.infix_nil]
  | cons d ds ih =>
    have e : reSearch (l.map RTok.lit) (d :: ds) =
        (matchAt (l.map RTok.lit) (d :: ds) || reSearch (l.map RTok.lit) ds) := rfl
    rw [e, List.map_cons, List.infix_cons_iff, ← List.map_cons Char.toLower d ds]
    simp [Bool.or_eq_true, matchAt_lit, ih]

/-- A compilation that produced only literal tokens came from a
metacharacter-free text and is its character-wise literal encoding. -/
theorem compileRe_lit (cs : List Char) (p : List RTok) (h : compileRe cs = some p)
    (hl : ∀ t ∈ p, ∃ c, t = RTok.lit c) : p = cs.map RTok.lit := by
  induction cs generalizing p with
  | nil =>
    have : some ([] : List RTok) = some p := h
    injection this with h2
    simp [← h2]
  | cons c cs ih =>
    unfold compileRe at h
    by_cases hm : c ∈ reMeta
    · rw [if_pos hm] at h; cases h
    · rw [if_neg hm] at h
      cases hrec : compileRe cs with
      | none => rw [hrec] at h; cases h
      | some q =>
        rw [hrec] at h
        have h2 : (if c = '.' then RTok.dot else RTok.lit c) :: q = p := by
          injection h
        by_cases hdot : c = '.'
        · exfalso
          rw [if_pos hdot] at h2
          obtain ⟨c2, hc2⟩ := hl RTok.dot (h2 ▸ List.mem_cons_self ..)
          cases hc2
        · rw [if_neg hdot] at h2
          have hq : q = cs.map RTok.lit :=
            ih q hrec fun t ht => hl t (h2 ▸ List.mem_cons_of_mem _ ht)
          rw [List.map_cons, ← h2, hq]

/-- The single-row filter, as a function of the row's text cell. -/
theorem applyFilter_single (r : Row) (p : List RTok) :
    applyFilter [r] [] [] p =
      match textCell p r with
      | some true => some [r]
      | some false => some []
      | none => none := by
  have step1 : applyFilter [r] [] [] p =
      (if ([textCell p r]).all Option.isSome then
        some (([r].zip [textCell p r]).filterMap
          fun rm => if rm.2 = some true then some rm.1 else none)
      else none) := rfl
  rw [step1]
  cases h : textCell p r with
  | none => rfl
  | some b => cases b <;> rfl

/-- C3 (amended): for a query text in the modelled regex fragment, the
text predicate retains a record iff the text — interpreted as a
case-insensitive regular expression, pandas' `str.contains` default —
matches somewhere inside the `description` field OR somewhere inside the
`comments` field; a missing field never matches (NaN is absorbed by the
`|`), and the filter does not raise as long as at least one of the two
fields is present.  When the text contains no regex metacharacter at
all, this is exactly the claimed case-insensitive substring test. -/
theorem text_predicate_regex_semantics (r : Row) (text : String) (p : List RTok)
    (hc : compileRe text.toList = some p) (hne : text ≠ "") :
    (applyFilter [r] [] [] p = some [r] ↔
      (∃ s, r.DESCRIPTION = some s ∧ reSearchS p s = true) ∨
      (∃ s, r.COMMENTS = some s ∧ reSearchS p s = true)) ∧
    ((r.DESCRIPTION.isSome ∨ r.COMMENTS.isSome) → (applyFilter [r] [] [] p).isSome = true) ∧
    ((∀ t ∈ p, ∃ c, t = RTok.lit c) →
      ∀ s : List Char, (reSearch p s = true ↔ ciSubstr text.toList s)) := by
  refine ⟨?_, ?_, ?_⟩
  · rw [applyFilter_single]
    cases hd : r.DESCRIPTION with
    | none =>
      cases hcm : r.COMMENTS with
      | none => simp [textCell, vecOr, hd, hcm]
      | some t =>
        cases hb : reSearchS p t <;> simp [textCell, vecOr, hd, hcm, hb]
    | some s0 =>
      cases hcm : r.COMMENTS with
      | none =>
        cases ha : reSearchS p s0 <;> simp [textCell, vecOr, hd, hcm, ha]
      | some t =>
        cases ha : reSearchS p s0 <;> cases hb : reSearchS p t <;>
          simp [textCell, vecOr, hd, hcm, ha, hb]
  · intro hpres
    rw [applyFilter_single]
    rcases hpres with hp1 | hp1
    · obtain ⟨s0, hs0⟩ := Option.isSome_iff_exists.mp hp1
      cases hcm : r.COMMENTS with
      | none => cases ha : reSearchS p s0 <;> simp [textCell, vecOr, hs0, hcm, ha]
      | some t =>
        cases ha : reSearchS p s0 <;> cases hb : reSearchS p t <;>
          simp [textCell, vecOr, hs0, hcm, ha, hb]
    · obtain ⟨t0, ht0⟩ := Option.isSome_iff_exists.mp hp1
      cases hd : r.DESCRIPTION with
      | none => cases hb : reSearchS p t0 <;> simp [textCell, vecOr, hd, ht0, hb]
      | some s0 =>
        cases ha : reSearchS p s0 <;> cases hb : reSearchS p t0 <;>
          simp [textCell, vecOr, hd, ht0, ha, hb]
  · intro hl s
    have hp := compileRe_lit text.toList p hc hl
    rw [hp]
    unfold ciSubstr
    exact reSearch_lit_iff_infix text.toList s

/-- Witness for C3's amended theorem: the spec's own example, query text
`"roof"` against a record whose description is `"New Roof"` and whose
comments are missing. -/
theorem text_predicate_regex_semantics_witness :
    compileRe "roof".toList = some patRoof ∧ "roof" ≠ "" ∧
    ((applyFilter [rowA] [] [] patRoof = some [rowA] ↔
      (∃ s, rowA.DESCRIPTION = some s ∧ reSearchS patRoof s = true) ∨
      (∃ s, rowA.COMMENTS = some s ∧ reSearchS patRoof s = true)) ∧
    ((rowA.DESCRIPTION.isSome ∨ rowA.COMMENTS.isSome) →
      (applyFilter [rowA] [] [] patRoof).isSome = true) ∧
    ((∀ t ∈ patRoof, ∃ c, t = RTok.lit c) →
      ∀ s : List Char, (reSearch patRoof s = true ↔ ciSubstr "roof".toList s))) :=
  ⟨by decide, by decide,
    text_predicate_regex_semantics rowA "roof" patRoof (by decide) (by decide)⟩

/-- C3 (counterexample): the claimed substring semantics does not hold.
The query text `"a.c"` is not a substring (case-insensitive or
otherwise) of the description `"abc"`, yet the filter retains the record,
because `str.contains` treats the text as a regular expression and `.`
matches the `b`.  The record's `comments` are missing, so the match is
via `description` alone. -/
theorem text_regex_not_substring_cex :
    compileRe "a.c".toList = some patAC ∧
    applyFilter [rowDescOnly] [] [] patAC = some [rowDescOnly] ∧
    ¬ ciSubstr "a.c".toList "abc".toList ∧
    rowDescOnly.DESCRIPTION = some "abc" ∧ rowDescOnly.COMMENTS = none := by
  refine ⟨by decide, by decide, by decide, rfl, rfl⟩

/-- `iloc` at a single in-bounds position. -/
theorem iloc_single (df : List Row) (i : Nat) (hi : i < df.length) :
    iloc df [i] = some [df.get ⟨i, hi⟩] := by
  simp [iloc, List.getElem?_eq_getElem hi, List.get_eq_getElem]

/-- `iloc` at two in-bounds positions. -/
theorem iloc_pair (df : List Row) (i j : Nat) (hi : i < df.length) (hj : j < df.length) :
    iloc df [i, j] = some [df.get ⟨i, hi⟩, df.get ⟨j, hj⟩] := by
  simp [iloc, List.getElem?_eq_getElem hi, List.getElem?_eq_getElem hj, List.get_eq_getElem]

/-- What one table-selection step computes, as a function of the
reported rows. -/
theorem step_tableSelect (s : AppState) (rows : List Nat) :
    step s (Event.tableSelect rows) =
      (if rows = [] then
        some ⟨s.table_idx, updSel s.tableSel s.table_idx rows, s.mapSel, s.df, none⟩
      else (iloc s.df rows).map fun sel =>
        ⟨s.table_idx, updSel s.tableSel s.table_idx rows, s.mapSel, s.df, some sel⟩) := by
  by_cases hr : rows = []
  · rw [if_pos hr]
    subst hr
    simp [step, on_table_select, updSel]
  · rw [if_neg hr]
    simp [step, on_table_select, updSel, hr]

/-- What one map-selection step computes when the `"scatterplot"` key is
present. -/
theorem step_mapSelect_some (s : AppState) (l : List Nat) :
    step s (Event.mapSelect (some l)) =
      (iloc s.df l).map fun sel =>
        ⟨s.table_idx + 1, s.tableSel, some l, s.df, some sel⟩ := rfl

/-- What one map-selection step computes when the `"scatterplot"` key is
absent. -/
theorem step_mapSelect_none (s : AppState) :
    step s (Event.mapSelect none) =
      some ⟨s.table_idx + 1, s.tableSel, none, s.df, none⟩ := rfl

/-- What one filter-change step computes. -/
theorem step_filterChange (s : AppState) (newDf : List Row) :
    step s (Event.filterChange newDf) =
      some ⟨s.table_idx + 1, s.tableSel, s.mapSel, newDf, none⟩ := rfl

/-- C4: from any state whose unused table keys are fresh, a table
selection of row 3 followed by a map selection of points 7 and 9 leaves
the machine in `MAP_ACTIVE([7,9])`: the stored selection is the map's
rows, and the table widget's displayed selection reads empty, because
`on_map_select` forces a table-widget reset (a fresh key) before
installing the map selection. -/
theorem table_then_map_select (s : AppState) (hf : freshAbove s)
    (h3 : 3 < s.df.length) (h7 : 7 < s.df.length) (h9 : 9 < s.df.length) :
    ∃ s1 s2, step s (Event.tableSelect [3]) = some s1 ∧
      step s1 (Event.mapSelect (some [7, 9])) = some s2 ∧
      selStateOf s2 = SelState.MAP_ACTIVE [7, 9] ∧
      displayedTableSel s2 = [] ∧
      s2.selected_df = some [s.df.get ⟨7, h7⟩, s.df.get ⟨9, h9⟩] := by
  have efresh : updSel s.tableSel s.table_idx [3] (s.table_idx + 1) = [] := by
    unfold updSel
    rw [if_neg (by omega)]
    exact hf _ (by omega)
  refine ⟨⟨s.table_idx, updSel s.tableSel s.table_idx [3], s.mapSel, s.df,
            some [s.df.get ⟨3, h3⟩]⟩,
          ⟨s.table_idx + 1, updSel s.tableSel s.table_idx [3], some [7, 9], s.df,
            some [s.df.get ⟨7, h7⟩, s.df.get ⟨9, h9⟩]⟩,
          ?_, ?_, ?_, ?_, ?_⟩
  · rw [step_tableSelect, if_neg (by simp), iloc_single s.df 3 h3]
    rfl
  · rw [step_mapSelect_some, iloc_pair s.df 7 9 h7 h9]
    rfl
  · show (if updSel s.tableSel s.table_idx [3] (s.table_idx + 1) ≠ [] then
        SelState.TABLE_ACTIVE (updSel s.tableSel s.table_idx [3] (s.table_idx + 1))
      else SelState.MAP_ACTIVE ((some [7, 9] : Option (List Nat)).getD [])) =
      SelState.MAP_ACTIVE [7, 9]
    rw [efresh, if_neg (by simp)]
    rfl
  · show updSel s.tableSel s.table_idx [3] (s.table_idx + 1) = []
    exact efresh
  · rfl

/-- Witness for C4 starting from the initial session state with a
ten-row frame. -/
theorem table_then_map_select_witness :
    ∃ s1 s2, step (initState sampleDf) (Event.tableSelect [3]) = some s1 ∧
      step s1 (Event.mapSelect (some [7, 9])) = some s2 ∧
      selStateOf s2 = SelState.MAP_ACTIVE [7, 9] ∧
      displayedTableSel s2 = [] ∧
      s2.selected_df =
        some [(initState sampleDf).df.get ⟨7, by simp [initState, sampleDf]⟩,
              (initState sampleDf).df.get ⟨9, by simp [initState, sampleDf]⟩] :=
  table_then_map_select (initState sampleDf) (fun _ _ => rfl)
    (by simp [initState, sampleDf]) (by simp [initState, sampleDf])
    (by simp [initState, sampleDf])

/-- C5: a filter or date change, from any state whatever the selection
is, yields the `NONE` selection state, and the focus set feeding the map
viewport and the detail panel is the entire newly filtered sequence. -/
theorem filter_change_resets_selection (s : AppState) (newDf : List Row) :
    ∃ s2, step s (Event.filterChange newDf) = some s2 ∧
      selStateOf s2 = SelState.NONE ∧ mapFocus s2 = newDf ∧ s2.df = newDf := by
  exact ⟨_, rfl, rfl, rfl, rfl⟩

/-- One step preserves the at-most-one-index widget invariant, provided
the event is one the single-selection widgets can emit. -/
theorem step_widgetInv (s s2 : AppState) (e : Event) (hI : widgetInv s) (hg : goodEvent e)
    (h : step s e = some s2) : widgetInv s2 := by
  obtain ⟨hT, hM⟩ := hI
  cases e with
  | tableSelect rows =>
    rw [step_tableSelect] at h
    by_cases hr : rows = []
    · rw [if_pos hr] at h
      injection h with h2
      subst h2
      refine ⟨fun k => ?_, hM⟩
      show (updSel s.tableSel s.table_idx rows k).length ≤ 1
      unfold updSel
      by_cases hk : k = s.table_idx
      · rw [if_pos hk, hr]; simp
      · rw [if_neg hk]; exact hT k
    · rw [if_neg hr] at h
      cases hi : iloc s.df rows with
      | none => rw [hi] at h; cases h
      | some sel =>
        rw [hi] at h
        injection h with h2
        subst h2
        refine ⟨fun k => ?_, hM⟩
        show (updSel s.tableSel s.table_idx rows k).length ≤ 1
        unfold updSel
        by_cases hk : k = s.table_idx
        · rw [if_pos hk]; simpa [goodEvent] using hg
        · rw [if_neg hk]; exact hT k
  | mapSelect idxs =>
    cases idxs with
    | none =>
      rw [step_mapSelect_none] at h
      injection h with h2
      subst h2
      exact ⟨hT, fun l hl => by cases hl⟩
    | some l =>
      rw [step_mapSelect_some] at h
      cases hi : iloc s.df l with
      | none => rw [hi] at h; cases h
      | some sel =>
        rw [hi] at h
        injection h with h2
        subst h2
        refine ⟨hT, fun l2 hl2 => ?_⟩
        have h3 : l = l2 := by injection hl2
        subst h3
        simpa [goodEvent] using hg
  | filterChange newDf =>
    rw [step_filterChange] at h
    injection h with h2
    subst h2
    exact ⟨hT, hM⟩

/-- The widget invariant holds over any run of widget-emittable
events. -/
theorem steps_widgetInv (evs : List Event) :
    ∀ s s2, widgetInv s → (∀ e ∈ evs, goodEvent e) → steps s evs = some s2 →
      widgetInv s2 := by
  induction evs with
  | nil =>
    intro s s2 hI _ h
    injection h with h2
    exact h2 ▸ hI
  | cons e es ih =>
    intro s s2 hI hg h
    unfold steps at h
    cases hs : step s e with
    | none => rw [hs] at h; cases h
    | some s1 =>
      rw [hs] at h
      exact ih s1 s2 (step_widgetInv s s1 e hI (hg e (List.mem_cons_self ..)) hs)
        (fun e2 he2 => hg e2 (List.mem_cons_of_mem _ he2)) h

/-- The widget invariant bounds the derived selection state's index
list. -/
theorem widgetInv_selIdxs (s : AppState) (hI : widgetInv s) :
    (selIdxs (selStateOf s)).length ≤ 1 := by
  obtain ⟨hT, hM⟩ := hI
  unfold selStateOf
  cases hsd : s.selected_df with
  | none => simp [selIdxs]
  | some l =>
    by_cases hd : displayedTableSel s ≠ []
    · rw [if_pos hd]
      exact hT s.table_idx
    · rw [if_neg hd]
      cases hm : s.mapSel with
      | none => simp [selIdxs]
      | some l2 => simpa [selIdxs] using hM l2 hm

/-- C10: both widgets are configured for single selection
(`selection_mode="single-row"` and `selection_mode="single-object"`), so
along every event sequence those widgets can emit, every reachable
selection state — `NONE`, `TABLE_ACTIVE` or `MAP_ACTIVE` — carries at
most one index. -/
theorem single_selection_invariant (df : List Row) (evs : List Event) (s2 : AppState)
    (hg : ∀ e ∈ evs, goodEvent e) (h : steps (initState df) evs = some s2) :
    (selIdxs (selStateOf s2)).length ≤ 1 := by
  have hI0 : widgetInv (initState df) :=
    ⟨fun k => by simp [initState], fun l hl => by cases hl⟩
  exact widgetInv_selIdxs s2 (steps_widgetInv evs (initState df) s2 hI0 hg h)

/-- Witness for C10 on a concrete event run: a table selection, then a
map selection, then a filter change. -/
theorem single_selection_invariant_witness :
    ∃ s2, steps (initState sampleDf)
        [Event.tableSelect [0], Event.mapSelect (some [1]), Event.filterChange []] =
        some s2 ∧
      (selIdxs (selStateOf s2)).length ≤ 1 :=
  ⟨_, rfl, single_selection_invariant sampleDf
    [Event.tableSelect [0], Event.mapSelect (some [1]), Event.filterChange []] _
    (by simp [goodEvent, List.forall_mem_cons]) rfl⟩

end Permits
